import Mathlib

/-!
# lglib.c — Lua binding of the GLib Regex library

A shallow embedding of `src/glib/lglib.c` (the GLib back end of lrexlib) and
theorems about it.

Conventions of the embedding.

* A Lua string is a byte sequence; it is a `List Char`, one `Char` per byte.
  The C view of it (`lua_tostring`) is that list followed by a terminating
  NUL, so a loop that walks a C string stops at the first `'\x00'` or at the
  end of the list, whichever comes first.
* C `int` values are `Int`; a narrowing conversion to `int` is `c_int`
  (reduction modulo `2^32` into the signed range).  Bitwise OR of two `int`s
  is `Int.lor` (two's complement).
* The GLib engine is an external collaborator.  It is a parameter of the
  model (`Engine`): a function from the explicit arguments of
  `g_regex_new` / `g_regex_match_full` / `g_regex_match_all_full` to what the
  call stores through its out-pointers and returns.
* Pointers that may be `NULL` are `Option`s.  A function that writes through
  a pointer argument returns the new value of the pointee.  Calls that
  release a resource or enter the engine are recorded, in program order, in
  a list of `Event`s returned next to the result.
* `luaL_error` does not return; a function that may raise yields a
  `LuaReturn`, either the values it leaves on the Lua stack or the message
  it raises.
-/

namespace Lglib

/-! ## Host and engine data -/

/-- Lua values that cross the boundary of this file.  `none` is `LUA_TNONE`
(no argument at that stack index).  `number n` carries the `lua_Integer`
that `lua_tointeger` delivers for the value, and is what `lua_pushinteger`
pushes.  A table holds the integer entries stored with `lua_rawseti`.
`other` stands for every remaining Lua type. -/
inductive LuaValue where
  | none
  | nil
  | boolean (b : Bool)
  | number (n : Int)
  | string (s : List Char)
  | table (t : List (Int × Int))
  | other
  deriving DecidableEq, Repr

/-- Outcome of a C function of the binding seen from Lua: the values left on
the stack for the caller (in push order), or the message raised through
`luaL_error` / `luaL_typerror`. -/
inductive LuaReturn where
  | values (vs : List LuaValue)
  | raise (msg : List Char)
  deriving DecidableEq, Repr

deriving instance DecidableEq for Except

/-- Conversion of an integer value to C `int` (32 bits, two's complement). -/
def c_int (x : Int) : Int := (x + 2147483648) % 4294967296 - 2147483648

/-- Compile flag `G_REGEX_CASELESS` of GLib (`1 << 0`). -/
def G_REGEX_CASELESS : Nat := 1
/-- Compile flag `G_REGEX_MULTILINE` of GLib (`1 << 1`). -/
def G_REGEX_MULTILINE : Nat := 2
/-- Compile flag `G_REGEX_DOTALL` of GLib (`1 << 2`). -/
def G_REGEX_DOTALL : Nat := 4
/-- Compile flag `G_REGEX_EXTENDED` of GLib (`1 << 3`). -/
def G_REGEX_EXTENDED : Nat := 8
/-- Compile flag `G_REGEX_UNGREEDY` of GLib (`1 << 9`). -/
def G_REGEX_UNGREEDY : Nat := 512

/-- Match flag `G_REGEX_MATCH_ANCHORED` of GLib (`1 << 4`). -/
def G_REGEX_MATCH_ANCHORED : Int := 16
/-- Match flag `G_REGEX_MATCH_NOTEMPTY` of GLib (`1 << 10`). -/
def G_REGEX_MATCH_NOTEMPTY : Int := 1024

/-- The value of `ALG_CFLAGS_DFLT`. -/
def ALG_CFLAGS_DFLT : Int := 0
/-- The value of `ALG_EFLAGS_DFLT`. -/
def ALG_EFLAGS_DFLT : Int := 0

/-- GLib `TRUE`. -/
def TRUE : Int := 1
/-- GLib `FALSE`. -/
def FALSE : Int := 0

/-! ## getcflags -/

/-- Body of the `while ((ch = *s++) != '\0')` loop of `getcflags`: `s` is the
rest of the C string, `res` the flags accumulated so far.  The end of the
list is the terminating NUL of the Lua string buffer. -/
def getcflags_loop : List Char → Nat → Nat
  | [], res => res
  | ch :: s, res =>
    if ch = '\x00' then res
    else if ch = 'i' then getcflags_loop s (res ||| G_REGEX_CASELESS)
    else if ch = 'm' then getcflags_loop s (res ||| G_REGEX_MULTILINE)
    else if ch = 's' then getcflags_loop s (res ||| G_REGEX_DOTALL)
    else if ch = 'x' then getcflags_loop s (res ||| G_REGEX_EXTENDED)
    else if ch = 'U' then getcflags_loop s (res ||| G_REGEX_UNGREEDY)
    else getcflags_loop s res

/-- Message of `luaL_typerror (L, pos, "number or string")`; the host adds
the argument position and the actual type name, which are not modelled. -/
def typerror_msg : List Char := "number or string expected".toList

/-- The function `getcflags (L, pos)`, applied to the value at stack index
`pos`. -/
def getcflags : LuaValue → Except (List Char) Int
  | .none => .ok ALG_CFLAGS_DFLT
  | .nil => .ok ALG_CFLAGS_DFLT
  | .number n => .ok (c_int n)
  | .string s => .ok (c_int (getcflags_loop s 0 : Nat))
  | _ => .error typerror_msg

/-- The flag the flag-string parser associates with one character, in the
words of the specification: the five recognised letters map to their
option, every other character maps to `0`. -/
def flag_of_char (c : Char) : Nat :=
  if c = 'i' then G_REGEX_CASELESS
  else if c = 'm' then G_REGEX_MULTILINE
  else if c = 's' then G_REGEX_DOTALL
  else if c = 'x' then G_REGEX_EXTENDED
  else if c = 'U' then G_REGEX_UNGREEDY
  else 0

/-- Bitwise OR, over the characters of `s`, of the flag of each character
(the specification's reading of a flag string). -/
def flags_or (s : List Char) : Nat :=
  s.foldl (fun acc c => acc ||| flag_of_char c) 0

/-- The five recognised compile options together. -/
def CFLAGS_MASK : Nat :=
  G_REGEX_CASELESS ||| G_REGEX_MULTILINE ||| G_REGEX_DOTALL ||| G_REGEX_EXTENDED |||
    G_REGEX_UNGREEDY

/-- The part of a Lua string that a C string loop sees: the characters before
the first NUL. -/
def c_str (s : List Char) : List Char := s.takeWhile (fun c => c != '\x00')

/-! ## The handle and the engine -/

/-- A compiled pattern (`GRegex *`): an immutable object of the engine,
identified by what it was compiled from. -/
structure GRegex where
  pattern : List Char
  compile_options : Int
  deriving DecidableEq, Repr

/-- An engine error (`GError`): the fields `code` and `message`. -/
structure GError where
  code : Int
  message : List Char
  deriving DecidableEq, Repr

/-- A match state (`GMatchInfo *`) as far as this file observes it:
`match_count` is what `g_match_info_get_match_count` answers, `offsets` lists
the `(start, end)` byte offsets that `g_match_info_fetch_pos` can deliver
(entry `n` for slot `n`; a group that did not take part holds `(-1, -1)`),
`partial_match` is what `g_match_info_is_partial_match` answers. -/
structure GMatchInfo where
  match_count : Int
  offsets : List (Int × Int)
  partial_match : Bool
  deriving DecidableEq, Repr

/-- The userdata `TGrgx`. -/
structure TGrgx where
  pr : Option GRegex
  match_info : Option GMatchInfo
  error : Option GError
  freed : Int
  deriving DecidableEq, Repr

/-- The fields of `TArgExec` (declared in the shared header of lrexlib) that
this file reads. -/
structure TArgExec where
  text : List Char
  textlen : Nat
  startoffset : Int
  eflags : Int
  deriving DecidableEq, Repr

/-- The fields of `TArgComp` (declared in the shared header of lrexlib) that
this file reads. -/
structure TArgComp where
  pattern : List Char
  cflags : Int
  deriving DecidableEq, Repr

/-- The explicit arguments of one `g_regex_match_full` /
`g_regex_match_all_full` call. -/
structure MatchRequest where
  regex : Option GRegex
  string : List Char
  string_len : Int
  start_position : Int
  match_options : Int
  deriving DecidableEq, Repr

/-- What one engine call hands back: its `gboolean` return value, the
`GMatchInfo *` it stores in `*match_info`, and the `GError *` it leaves in
`*error` (`none` when it reports no error). -/
structure MatchOutcome where
  result : Int
  match_info : Option GMatchInfo
  error : Option GError
  deriving DecidableEq, Repr

/-- The GLib regex engine, an external collaborator: `regex_new pattern
compile_options match_options` answers the compiled pattern (or `NULL`) and
the error it stores; the two match functions answer a `MatchOutcome` that
depends on the explicit arguments of the call only. -/
structure Engine where
  regex_new : List Char → Int → Int → Option GRegex × Option GError
  match_full : MatchRequest → MatchOutcome
  match_all_full : MatchRequest → MatchOutcome

/-- Calls into GLib that release a resource or run the engine, as recorded
in program order. -/
inductive Event where
  | g_match_info_free (m : GMatchInfo)
  | g_error_free (e : GError)
  | g_regex_unref (r : GRegex)
  | g_regex_match_full (rq : MatchRequest)
  | g_regex_match_all_full (rq : MatchRequest)
  deriving DecidableEq, Repr

/-- The function `minfo_free`. -/
def minfo_free (ud : TGrgx) : TGrgx × List Event :=
  ({ ud with match_info := none },
    match ud.match_info with
    | some m => [Event.g_match_info_free m]
    | none => [])

/-- The function `gerror_free`. -/
def gerror_free (ud : TGrgx) : TGrgx × List Event :=
  ({ ud with error := none },
    match ud.error with
    | some e => [Event.g_error_free e]
    | none => [])

/-- GLib `g_match_info_fetch_pos (match_info, n, &start, &end)`: the offsets
of slot `n`, or `none` when the call answers `FALSE` and leaves its
out-parameters alone (no match state, negative `n`, or no such slot). -/
def g_match_info_fetch_pos (mi : Option GMatchInfo) (n : Int) : Option (Int × Int) :=
  match mi with
  | none => none
  | some m => if n < 0 then none else m.offsets.get? n.toNat

/-- GLib `g_match_info_get_match_count`; `-1` without a match state. -/
def g_match_info_get_match_count (mi : Option GMatchInfo) : Int :=
  match mi with
  | none => -1
  | some m => m.match_count

/-- GLib `g_match_info_is_partial_match`; `FALSE` without a match state. -/
def g_match_info_is_partial_match (mi : Option GMatchInfo) : Bool :=
  match mi with
  | none => false
  | some m => m.partial_match

/-- The function `getSubStartPos`. -/
def getSubStartPos (ud : TGrgx) (n : Int) : Int :=
  match g_match_info_fetch_pos ud.match_info n with
  | some (start_pos, _) => start_pos
  | none => -1

/-- The function `getSubEndPos`. -/
def getSubEndPos (ud : TGrgx) (n : Int) : Int :=
  match g_match_info_fetch_pos ud.match_info n with
  | some (_, end_pos) => end_pos
  | none => -1

/-! ## The `ALG_` macros -/

/-- The macro `ALG_NOMATCH`. -/
def ALG_NOMATCH (res : Int) : Bool := res == FALSE
/-- The macro `ALG_ISMATCH`. -/
def ALG_ISMATCH (res : Int) : Bool := res == TRUE
/-- The macro `ALG_SUBBEG`. -/
def ALG_SUBBEG (ud : TGrgx) (n : Int) : Int := getSubStartPos ud n
/-- The macro `ALG_SUBEND`. -/
def ALG_SUBEND (ud : TGrgx) (n : Int) : Int := getSubEndPos ud n
/-- One entry of a flag table (`flag_pair` of the shared header): a name and
its numeric value. -/
structure flag_pair where
  key : List Char
  val : Int
  deriving DecidableEq, Repr

/-- Modelled from the spec: `get_flag_key`, the lookup in the static
code-to-name table, lives in the shared part of lrexlib and is not in
`lglib.c`.  The specification describes a mapping table (id to name) queried
on demand, where absence means "unknown code": the name of the first
entry whose value is `val`, or `none` (a `NULL` key). -/
def get_flag_key (fs : List flag_pair) (val : Int) : Option (List Char) :=
  (fs.find? (fun f => f.val == val)).map (fun f => f.key)

/-- The `%d` conversion of `luaL_error`. -/
def fmt_d (n : Int) : List Char := (toString n).toList

/-- The function `generate_error`; `gregex_error_flags` is the external
table it consults.  `none` when `ud->error` is `NULL` (the function
dereferences it).  The message is the formatted text handed to
`luaL_error`. -/
def generate_error (gregex_error_flags : List flag_pair) (ud : TGrgx) (_errcode : Int) :
    Option LuaReturn :=
  match ud.error with
  | none => none
  | some err =>
    match get_flag_key gregex_error_flags err.code with
    | some key =>
      some (.raise ("error G_REGEX_".toList ++ key ++ " (".toList ++ err.message ++ ")".toList))
    | none =>
      some (.raise ("Glib Regex error: ".toList ++ err.message ++ " (code ".toList ++
        fmt_d err.code ++ ")".toList))

/-- What `compile_regex` hands back: the new userdata (left on the stack and
stored through `pud`), or the message it raises. -/
inductive CompileReturn where
  | userdata (ud : TGrgx)
  | raise (msg : List Char)
  deriving DecidableEq, Repr

/-- The function `compile_regex`.  `none` when `g_regex_new` answers `NULL`
without storing an error (the function dereferences `ud->error`). -/
def compile_regex (eng : Engine) (argC : TArgComp) : Option CompileReturn :=
  let ud0 : TGrgx := { pr := none, match_info := none, error := none, freed := 0 }
  let (pr, error) := eng.regex_new argC.pattern argC.cflags 0
  let ud : TGrgx := { ud0 with pr := pr, error := error }
  match ud.pr with
  | none =>
    match ud.error with
    | none => none
    | some err =>
      some (.raise (err.message ++ " (code: ".toList ++ fmt_d err.code ++ ")".toList))
  | some _ => some (.userdata ud)

/-! ## Execution entry points -/

/-- Result of one of the `*_exec` functions: the returned `int`, the handle
and the argument block after the call (both are passed by pointer), and the
recorded GLib calls. -/
structure ExecResult where
  ret : Int
  ud : TGrgx
  argE : TArgExec
  events : List Event
  deriving DecidableEq, Repr

/-- The call `g_regex_match_full (ud->pr, text, textlen, st, eflags,
&ud->match_info, &ud->error)` shared by the four `*_exec` functions, after
the two frees. -/
def call_match_full (eng : Engine) (ud : TGrgx) (argE : TArgExec) (st eflags : Int)
    (before : List Event) : ExecResult :=
  let rq : MatchRequest :=
    { regex := ud.pr, string := argE.text, string_len := argE.textlen,
      start_position := st, match_options := eflags }
  let out := eng.match_full rq
  { ret := out.result,
    ud := { ud with match_info := out.match_info, error := out.error },
    argE := argE,
    events := before ++ [Event.g_regex_match_full rq] }

/-- The function `gmatch_exec` (the `ALG_USERETRY` variant, which is the one
compiled). -/
def gmatch_exec (eng : Engine) (ud : TGrgx) (argE : TArgExec) (retry : Int) : ExecResult :=
  let (ud1, ev1) := minfo_free ud
  let (ud2, ev2) := gerror_free ud1
  let eflags :=
    if retry ≠ 0 then
      Int.lor (Int.lor argE.eflags G_REGEX_MATCH_NOTEMPTY) G_REGEX_MATCH_ANCHORED
    else argE.eflags
  call_match_full eng ud2 argE argE.startoffset eflags (ev1 ++ ev2)

/-- The function `findmatch_exec`. -/
def findmatch_exec (eng : Engine) (ud : TGrgx) (argE : TArgExec) : ExecResult :=
  let (ud1, ev1) := minfo_free ud
  let (ud2, ev2) := gerror_free ud1
  call_match_full eng ud2 argE argE.startoffset argE.eflags (ev1 ++ ev2)

/-- The function `gsub_exec` (the `ALG_USERETRY` variant). -/
def gsub_exec (eng : Engine) (ud : TGrgx) (argE : TArgExec) (st retry : Int) : ExecResult :=
  let (ud1, ev1) := minfo_free ud
  let (ud2, ev2) := gerror_free ud1
  let eflags :=
    if retry ≠ 0 then
      Int.lor (Int.lor argE.eflags G_REGEX_MATCH_NOTEMPTY) G_REGEX_MATCH_ANCHORED
    else argE.eflags
  call_match_full eng ud2 argE st eflags (ev1 ++ ev2)

/-- The function `split_exec`. -/
def split_exec (eng : Engine) (ud : TGrgx) (argE : TArgExec) (offset : Int) : ExecResult :=
  let (ud1, ev1) := minfo_free ud
  let (ud2, ev2) := gerror_free ud1
  call_match_full eng ud2 argE offset argE.eflags (ev1 ++ ev2)

/-! ## dfa_exec -/

/-- Lua `lua_rawseti` on a table of integer entries: `t[k] = v`. -/
def lua_rawseti (t : List (Int × Int)) (k v : Int) : List (Int × Int) :=
  t.filter (fun kv => kv.1 != k) ++ [(k, v)]

/-- The `for (i=0; i<max; i++)` loop of `Gregex_dfa_exec`, with `n`
iterations left to run from index `i`.  `start_pos` and `end_pos` are the
two locals (`none` while uninitialised), `t` the table under construction.
`none` when an uninitialised local would be pushed. -/
def dfa_exec_loop (mi : Option GMatchInfo) :
    Nat → Int → Option Int → Option Int → List (Int × Int) → Option (List (Int × Int))
  | 0, _, _, _, t => some t
  | n + 1, i, start_pos, end_pos, t =>
    let fetched := g_match_info_fetch_pos mi i
    let start_pos := match fetched with
      | some (s, _) => some s
      | none => start_pos
    let end_pos := match fetched with
      | some (_, e) => some e
      | none => end_pos
    match start_pos, end_pos with
    | some s, some e =>
      dfa_exec_loop mi n (i + 1) start_pos end_pos
        (lua_rawseti (lua_rawseti t (i + i + 1) s) (i + i + 2) e)
    | _, _ => none

/-- Result of `Gregex_dfa_exec`: what Lua sees, the handle afterwards, and
the recorded GLib calls. -/
structure DfaResult where
  ret : LuaReturn
  ud : TGrgx
  events : List Event
  deriving DecidableEq, Repr

/-- The function `Gregex_dfa_exec`, from the point where `checkarg_dfa_exec`
has filled `argE` and found the handle `ud`.  `gregex_error_flags` is the
external table used by `generate_error`.  `none` when the C code reads an
uninitialised local or dereferences `NULL`. -/
def Gregex_dfa_exec (eng : Engine) (gregex_error_flags : List flag_pair) (ud : TGrgx)
    (argE : TArgExec) : Option DfaResult :=
  let (ud1, ev1) := gerror_free ud
  let rq : MatchRequest :=
    { regex := ud1.pr, string := argE.text, string_len := c_int argE.textlen,
      start_position := argE.startoffset, match_options := argE.eflags }
  let out := eng.match_all_full rq
  let res := out.result
  let ud2 : TGrgx := { ud1 with match_info := out.match_info, error := out.error }
  let ev2 := ev1 ++ [Event.g_regex_match_all_full rq]
  if ALG_ISMATCH res then
    let max := g_match_info_get_match_count ud2.match_info
    match g_match_info_fetch_pos ud2.match_info 0 with
    | none => none
    | some (start_pos, _) =>
      match dfa_exec_loop ud2.match_info max.toNat 0 (some start_pos) none [] with
      | none => none
      | some t =>
        let (ud3, ev3) := minfo_free ud2
        some { ret := .values [.number (start_pos + 1), .table t, .number max],
               ud := ud3, events := ev2 ++ ev3 }
  else if g_match_info_is_partial_match ud2.match_info then
    let (ud3, ev3) := minfo_free ud2
    some { ret := .values [.boolean true], ud := ud3, events := ev2 ++ ev3 }
  else
    let (ud3, ev3) := minfo_free ud2
    if ALG_NOMATCH res then
      some { ret := .values [.nil], ud := ud3, events := ev2 ++ ev3 }
    else
      (generate_error gregex_error_flags ud3 0).map
        (fun r => { ret := r, ud := ud3, events := ev2 ++ ev3 })

/-! ## Teardown -/

/-- The function `Gregex_gc`, applied to the handle found by `check_ud`. -/
def Gregex_gc (ud : TGrgx) : TGrgx × List Event :=
  if ud.freed = 0 then
    let ud0 : TGrgx := { ud with freed := 1 }
    let ev0 := match ud0.pr with
      | some r => [Event.g_regex_unref r]
      | none => []
    let (ud1, ev1) := minfo_free ud0
    let (ud2, ev2) := gerror_free ud1
    (ud2, ev0 ++ ev1 ++ ev2)
  else (ud, [])

/-- The handle and the recorded GLib calls after `n` successive calls of
`Gregex_gc`. -/
def gc_repeat : Nat → TGrgx → TGrgx × List Event
  | 0, ud => (ud, [])
  | n + 1, ud =>
    let (ud1, ev1) := Gregex_gc ud
    let (ud2, ev2) := gc_repeat n ud1
    (ud2, ev1 ++ ev2)

/-! ## The global iterator -/

/-- Modelled from the spec: the three outcomes of the Execution Primitive
(section 4.1); the code that tells them apart is in the shared algorithm
header of lrexlib, which is not in `lglib.c`. -/
inductive ExecOutcome where
  | matched
  | no_match
  | engine_error
  deriving DecidableEq, Repr

/-- Modelled from the spec: how section 4.1 classifies one run of the
Execution Primitive (the classifying code is in the shared algorithm header,
not in `lglib.c`): engine-error when the EngineError is populated, matched
when the engine reports a match, no-match otherwise. -/
def exec_outcome (r : ExecResult) : ExecOutcome :=
  if r.ud.error.isSome then .engine_error
  else if ALG_ISMATCH r.ret then .matched
  else .no_match

/-- What the consumer of a global iteration has seen when the sequence
ends: the slot-0 byte range `(start, end)` of every yielded match, in
order, and the engine error that ended the sequence, if one did. -/
structure IterResult where
  yielded : List (Int × Int)
  error : Option GError
  deriving DecidableEq, Repr

/-- Modelled from the spec: the Global Iterator of section 4.3 (`gmatch`);
its loop is in the shared algorithm header of lrexlib, which is not in
`lglib.c`.  State: the scan offset `argE.startoffset` and the `retry` flag.
Step 1 runs `gmatch_exec` (from `lglib.c`) at the offset.  Steps 2 and 3: on
no-match after a retry the offset advances by one position and the sequence
ends if it is then beyond the subject length, else the loop goes on with
`retry` cleared; on no-match without retry the sequence ends.  Step 4: a
match is yielded, the next offset is the end of slot 0 and `retry` is set
exactly when the match was empty.  Step 5: an engine error ends the
sequence and is handed to the consumer.  `fuel` bounds the number of engine
runs; `none` means the bound was reached before the sequence ended. -/
def iterate (eng : Engine) : Nat → TGrgx → TArgExec → Int → Option IterResult
  | 0, _, _, _ => none
  | fuel + 1, ud, argE, retry =>
    let r := gmatch_exec eng ud argE retry
    match exec_outcome r with
    | .engine_error => some { yielded := [], error := r.ud.error }
    | .no_match =>
      if retry ≠ 0 then
        let offset := argE.startoffset + 1
        if offset > argE.textlen then some { yielded := [], error := none }
        else iterate eng fuel r.ud { argE with startoffset := offset } 0
      else some { yielded := [], error := none }
    | .matched =>
      let s := ALG_SUBBEG r.ud 0
      let e := ALG_SUBEND r.ud 0
      let matchLen := e - s
      match iterate eng fuel r.ud { argE with startoffset := e }
          (if matchLen = 0 then 1 else 0) with
      | none => none
      | some rest => some { yielded := (s, e) :: rest.yielded, error := rest.error }

/-- The guarantees of the external engine that the iterator relies on, for
a `g_regex_match_full` call that starts inside the subject, reports a match
and no error: slot 0 is available, it lies between the start position and
the subject length, its end is not before its start, and it is not empty
when `G_REGEX_MATCH_NOTEMPTY` (bit 10) is among the match options. -/
def EngineContract (eng : Engine) : Prop :=
  ∀ rq : MatchRequest, 0 ≤ rq.start_position → rq.start_position ≤ rq.string_len →
    (eng.match_full rq).error = none → (eng.match_full rq).result = TRUE →
    ∃ s e, g_match_info_fetch_pos (eng.match_full rq).match_info 0 = some (s, e) ∧
      rq.start_position ≤ s ∧ s ≤ e ∧ e ≤ rq.string_len ∧
      (Int.testBit rq.match_options 10 = true → s < e)

/-! ## A small engine for examples -/

/-- Length of the run of `'a'` at the head of a string. -/
def run_of_a : List Char → Nat
  | [] => 0
  | c :: s => if c = 'a' then run_of_a s + 1 else 0

/-- An engine that behaves like the pattern `a*` tried at the start
position only: it matches the run of `'a'` found there, which may be empty
unless `G_REGEX_MATCH_NOTEMPTY` is set. -/
def a_star_engine : Engine where
  regex_new := fun pattern cflags _ => (some { pattern := pattern, compile_options := cflags }, none)
  match_full := fun rq =>
    let n := run_of_a ((rq.string.take rq.string_len.toNat).drop rq.start_position.toNat)
    if rq.start_position < 0 ∨ rq.string_len < rq.start_position ∨
        (n = 0 ∧ Int.testBit rq.match_options 10 = true) then
      { result := FALSE, match_info := some { match_count := 0, offsets := [], partial_match := false },
        error := none }
    else
      { result := TRUE,
        match_info := some { match_count := 1,
                             offsets := [(rq.start_position, rq.start_position + n)],
                             partial_match := false },
        error := none }
  match_all_full := fun _ =>
    { result := FALSE, match_info := some { match_count := 0, offsets := [], partial_match := false },
      error := none }

/-- The GLib calls that release what a handle owns, each once: the compiled
pattern, the last match state and the last error, as far as present. -/
def release_events (ud : TGrgx) : List Event :=
  ud.pr.toList.map Event.g_regex_unref ++
    ud.match_info.toList.map Event.g_match_info_free ++
    ud.error.toList.map Event.g_error_free

/-- A handle after the engine reported the match `12-34` of the pattern
`(\d+)-(\d+)`: slot 0 is `[0,5)`, the two groups are `[0,2)` and `[3,5)`. -/
def ud_12_34 : TGrgx :=
  { pr := some { pattern := "(\\d+)-(\\d+)".toList, compile_options := 0 },
    match_info := some { match_count := 3, offsets := [(0, 5), (0, 2), (3, 5)],
                         partial_match := false },
    error := none, freed := 0 }

/-- A fresh handle for the pattern `a*`. -/
def ud_a_star : TGrgx :=
  { pr := some { pattern := "a*".toList, compile_options := 0 },
    match_info := none, error := none, freed := 0 }

/-- An engine that reports back what it was called with: a match call
answers with the match options it received as its result and with the start
position it received as slot 0 of the match state.  It makes the request
that reaches the engine visible in the result of the caller. -/
def echo_engine : Engine where
  regex_new := fun pattern cflags _ => (some { pattern := pattern, compile_options := cflags }, none)
  match_full := fun rq =>
    { result := rq.match_options,
      match_info := some { match_count := 1,
                           offsets := [(rq.start_position, rq.start_position)],
                           partial_match := false },
      error := none }
  match_all_full := fun rq =>
    { result := rq.match_options, match_info := none, error := none }

/-- An engine that answers every call the same way; used to present single
engine outcomes. -/
def const_engine (new : Option GRegex × Option GError) (full all : MatchOutcome) : Engine where
  regex_new := fun _ _ _ => new
  match_full := fun _ => full
  match_all_full := fun _ => all

/-- The engine request that `Gregex_dfa_exec` builds from the handle and the
argument block. -/
def dfa_request (ud : TGrgx) (argE : TArgExec) : MatchRequest :=
  { regex := ud.pr, string := argE.text, string_len := c_int argE.textlen,
    start_position := argE.startoffset, match_options := argE.eflags }

/-- A few entries in the shape of the external table `gregex_error_flags`
(symbolic name, GLib error code). -/
def sample_error_flags : List flag_pair :=
  [{ key := "ERROR_COMPILE".toList, val := 0 },
   { key := "ERROR_MATCH".toList, val := 3 },
   { key := "ERROR_UNMATCHED_PARENTHESIS".toList, val := 114 }]

/-- The GLib error of a pattern with an unbalanced group
(`G_REGEX_ERROR_UNMATCHED_PARENTHESIS`, code 114). -/
def err_unmatched : GError := { code := 114, message := "missing )".toList }

/-- A GLib error raised while matching (`G_REGEX_ERROR_MATCH`, code 3). -/
def err_match : GError := { code := 3, message := "match failed".toList }

/-- Whether a recorded GLib call runs the engine. -/
def Event.is_engine_call : Event → Bool
  | .g_regex_match_full _ => true
  | .g_regex_match_all_full _ => true
  | _ => false

/-- The engine runs among recorded GLib calls, in order. -/
def engine_calls (evs : List Event) : List Event := evs.filter Event.is_engine_call

/-- The engine request that `gmatch_exec`, `findmatch_exec`, `gsub_exec` and
`split_exec` build from the handle and the argument block, for start
position `st` and match options `eflags`. -/
def request_of (ud : TGrgx) (argE : TArgExec) (st eflags : Int) : MatchRequest :=
  { regex := ud.pr, string := argE.text, string_len := argE.textlen,
    start_position := st, match_options := eflags }


/-! ## Theorems: getcflags -/

theorem getcflags_loop_eq_foldl (s : List Char) (res : Nat) :
    getcflags_loop s res = (c_str s).foldl (fun acc c => acc ||| flag_of_char c) res := by
  induction s generalizing res with
  | nil => rfl
  | cons ch s ih =>
    unfold getcflags_loop
    by_cases h0 : ch = '\x00'
    · simp [h0, c_str]
    · have hc : c_str (ch :: s) = ch :: c_str s := by simp [c_str, h0]
      rw [hc, List.foldl_cons]
      simp only [h0, if_false]
      rw [← ih]
      unfold flag_of_char
      split_ifs <;> simp

theorem foldl_or_testBit (s : List Char) (res k : Nat) :
    (s.foldl (fun acc c => acc ||| flag_of_char c) res).testBit k =
      (res.testBit k || s.any (fun c => (flag_of_char c).testBit k)) := by
  induction s generalizing res with
  | nil => simp
  | cons c s ih => simp [ih, Bool.or_assoc]

theorem flags_or_testBit (s : List Char) (k : Nat) :
    (flags_or s).testBit k = s.any (fun c => (flag_of_char c).testBit k) := by
  simp [flags_or, foldl_or_testBit]

theorem flag_of_char_and_mask (c : Char) : flag_of_char c &&& CFLAGS_MASK = flag_of_char c := by
  unfold flag_of_char
  split_ifs <;> decide

theorem flag_of_char_testBit_mask (c : Char) (k : Nat) (h : (flag_of_char c).testBit k = true) :
    CFLAGS_MASK.testBit k = true := by
  have := congrArg (fun x => x.testBit k) (flag_of_char_and_mask c)
  simp [h] at this
  exact this

theorem flags_or_and_mask (s : List Char) : flags_or s &&& CFLAGS_MASK = flags_or s := by
  apply Nat.eq_of_testBit_eq
  intro k
  rw [Nat.testBit_and, flags_or_testBit]
  cases h : s.any (fun c => (flag_of_char c).testBit k) with
  | false => rfl
  | true =>
    obtain ⟨c, _, hc⟩ := List.any_eq_true.mp h
    simp [flag_of_char_testBit_mask c k hc]

theorem flags_or_lt (s : List Char) : flags_or s < 1024 := by
  have h : flags_or s ≤ CFLAGS_MASK := by
    rw [← flags_or_and_mask s]
    exact Nat.and_le_right
  have : CFLAGS_MASK = 527 := by decide
  omega

theorem c_int_of_small (m : Nat) (h : m < 1024) : c_int (m : Int) = (m : Int) := by
  unfold c_int
  omega

theorem getcflags_string (s : List Char) :
    getcflags (.string s) = .ok ((flags_or (c_str s) : Nat) : Int) := by
  simp only [getcflags]
  rw [getcflags_loop_eq_foldl]
  exact congrArg Except.ok (c_int_of_small _ (flags_or_lt _))

theorem c_str_of_no_nul (s : List Char) (h : '\x00' ∉ s) : c_str s = s := by
  induction s with
  | nil => rfl
  | cons c s ih =>
    have hc : c ≠ '\x00' := fun e => h (by simp [e])
    have hs : '\x00' ∉ s := fun e => h (by simp [e])
    simp [c_str, hc] at ih ⊢
    exact ih hs

theorem c_str_append (s t : List Char) (h : '\x00' ∉ s) : c_str (s ++ t) = s ++ c_str t := by
  induction s with
  | nil => rfl
  | cons c s ih =>
    have hc : c ≠ '\x00' := fun e => h (by simp [e])
    have hs : '\x00' ∉ s := fun e => h (by simp [e])
    simp [c_str, hc] at ih ⊢
    exact ih hs

theorem flags_or_append (s t : List Char) : flags_or (s ++ t) = flags_or s ||| flags_or t := by
  apply Nat.eq_of_testBit_eq
  intro k
  simp [flags_or_testBit]

theorem flags_or_congr (s t : List Char)
    (h : ∀ c, flag_of_char c ≠ 0 → (c ∈ s ↔ c ∈ t)) : flags_or s = flags_or t := by
  apply Nat.eq_of_testBit_eq
  intro k
  rw [flags_or_testBit, flags_or_testBit, Bool.eq_iff_iff, List.any_eq_true, List.any_eq_true]
  constructor
  · rintro ⟨c, hc, hk⟩
    exact ⟨c, (h c (fun e => by simp [e] at hk)).mp hc, hk⟩
  · rintro ⟨c, hc, hk⟩
    exact ⟨c, (h c (fun e => by simp [e] at hk)).mpr hc, hk⟩

/-- C10 (amended).  For a flag string, `getcflags` never raises and answers
the bitwise OR, over the characters before the first NUL of the string, of
the flag of each character (`i`, `m`, `s`, `x`, `U` map to their option,
every other character to 0); for a string without NUL that is the OR over
all its characters.  The result holds only the five option bits;
`getcflags (s1 ++ s2) = getcflags s1 OR getcflags s2` when `s1` has no NUL;
two strings whose parts before the first NUL hold the same recognised
letters (in any order, with any multiplicity, with any other characters in
between) give the same result.  An absent or nil argument gives 0.  A
numeric argument is converted to C `int`, so it is returned unchanged when
it lies in the `int` range. -/
theorem getcflags_flag_string :
    (∀ s, getcflags (.string s) = .ok ((flags_or (c_str s) : Nat) : Int)) ∧
    (∀ s, '\x00' ∉ s → getcflags (.string s) = .ok ((flags_or s : Nat) : Int)) ∧
    (∀ s, ∃ m : Nat, getcflags (.string s) = .ok (m : Int) ∧ m &&& CFLAGS_MASK = m) ∧
    (∀ s1 s2, '\x00' ∉ s1 → ∃ m1 m2 : Nat,
        getcflags (.string s1) = .ok (m1 : Int) ∧ getcflags (.string s2) = .ok (m2 : Int) ∧
        getcflags (.string (s1 ++ s2)) = .ok ((m1 ||| m2 : Nat) : Int)) ∧
    (∀ s t, (∀ c, flag_of_char c ≠ 0 → (c ∈ c_str s ↔ c ∈ c_str t)) →
        getcflags (.string s) = getcflags (.string t)) ∧
    getcflags .none = .ok 0 ∧ getcflags .nil = .ok 0 ∧
    (∀ n, getcflags (.number n) = .ok (c_int n)) ∧
    (∀ n, -2147483648 ≤ n → n < 2147483648 → getcflags (.number n) = .ok n) := by
  refine ⟨getcflags_string, ?_, ?_, ?_, ?_, rfl, rfl, fun _ => rfl, ?_⟩
  · intro s hs
    rw [getcflags_string, c_str_of_no_nul s hs]
  · intro s
    exact ⟨_, getcflags_string s, flags_or_and_mask _⟩
  · intro s1 s2 h1
    refine ⟨_, _, getcflags_string s1, getcflags_string s2, ?_⟩
    rw [getcflags_string, c_str_append s1 s2 h1, flags_or_append, c_str_of_no_nul s1 h1]
  · intro s t h
    rw [getcflags_string, getcflags_string, flags_or_congr _ _ h]
  · intro n h1 h2
    simp only [getcflags, c_int]
    congr 1
    omega

/-- C10, an instance: the flag string `"imsxU"` has no NUL and yields all
five options, and the number 5 is returned as it is. -/
theorem getcflags_flag_string_witness :
    getcflags (.string "imsxU".toList) = .ok 527 ∧ getcflags (.number 5) = .ok 5 :=
  ⟨(getcflags_flag_string.2.1 "imsxU".toList (by decide)).trans (by decide),
   getcflags_flag_string.2.2.2.2.2.2.2.2 5 (by decide) (by decide)⟩

/-- C10 as stated fails.  The Lua string made of a NUL byte followed by `i`
yields 0, not the OR over its characters (which holds `G_REGEX_CASELESS`),
so concatenation does not distribute either; and the number `2^32` is not
returned unchanged but reduced to the `int` 0. -/
theorem getcflags_counterexample :
    getcflags (.string ['\x00', 'i']) = .ok 0 ∧
    flags_or ['\x00', 'i'] = G_REGEX_CASELESS ∧
    getcflags (.string ['\x00', 'i']) ≠ .ok ((flags_or ['\x00', 'i'] : Nat) : Int) ∧
    getcflags (.string ['\x00']) = .ok 0 ∧ getcflags (.string ['i']) = .ok 1 ∧
    getcflags (.string (['\x00'] ++ ['i'])) ≠ .ok (Int.lor 0 1) ∧
    getcflags (.number 4294967296) = .ok 0 ∧
    getcflags (.number 4294967296) ≠ .ok 4294967296 := by
  decide


/-! ## Theorems: retry flags -/

/-- C1.  `gmatch_exec` and `gsub_exec` release the prior match state and the
prior error and then invoke the engine exactly once, at the given start
position, with match options equal to the base flags `argE->eflags` when
`retry = 0` and equal to
`argE->eflags | G_REGEX_MATCH_NOTEMPTY | G_REGEX_MATCH_ANCHORED` when
`retry` is non-zero: the returned value, the match state and the error left
on the handle are what the engine answers to exactly that request, and that
request is the only engine call recorded.  The argument block, and so the
stored base flags, is the same after the call. -/
theorem exec_retry_flags (eng : Engine) (ud : TGrgx) (argE : TArgExec) (st retry : Int) :
    gmatch_exec eng ud argE retry =
      { ret := (eng.match_full (request_of ud argE argE.startoffset
          (if retry = 0 then argE.eflags
           else Int.lor (Int.lor argE.eflags G_REGEX_MATCH_NOTEMPTY)
             G_REGEX_MATCH_ANCHORED))).result,
        ud := { ud with
          match_info := (eng.match_full (request_of ud argE argE.startoffset
            (if retry = 0 then argE.eflags
             else Int.lor (Int.lor argE.eflags G_REGEX_MATCH_NOTEMPTY)
               G_REGEX_MATCH_ANCHORED))).match_info,
          error := (eng.match_full (request_of ud argE argE.startoffset
            (if retry = 0 then argE.eflags
             else Int.lor (Int.lor argE.eflags G_REGEX_MATCH_NOTEMPTY)
               G_REGEX_MATCH_ANCHORED))).error },
        argE := argE,
        events := ud.match_info.toList.map Event.g_match_info_free ++
          ud.error.toList.map Event.g_error_free ++
          [Event.g_regex_match_full (request_of ud argE argE.startoffset
            (if retry = 0 then argE.eflags
             else Int.lor (Int.lor argE.eflags G_REGEX_MATCH_NOTEMPTY)
               G_REGEX_MATCH_ANCHORED))] } ∧
    gsub_exec eng ud argE st retry =
      { ret := (eng.match_full (request_of ud argE st
          (if retry = 0 then argE.eflags
           else Int.lor (Int.lor argE.eflags G_REGEX_MATCH_NOTEMPTY)
             G_REGEX_MATCH_ANCHORED))).result,
        ud := { ud with
          match_info := (eng.match_full (request_of ud argE st
            (if retry = 0 then argE.eflags
             else Int.lor (Int.lor argE.eflags G_REGEX_MATCH_NOTEMPTY)
               G_REGEX_MATCH_ANCHORED))).match_info,
          error := (eng.match_full (request_of ud argE st
            (if retry = 0 then argE.eflags
             else Int.lor (Int.lor argE.eflags G_REGEX_MATCH_NOTEMPTY)
               G_REGEX_MATCH_ANCHORED))).error },
        argE := argE,
        events := ud.match_info.toList.map Event.g_match_info_free ++
          ud.error.toList.map Event.g_error_free ++
          [Event.g_regex_match_full (request_of ud argE st
            (if retry = 0 then argE.eflags
             else Int.lor (Int.lor argE.eflags G_REGEX_MATCH_NOTEMPTY)
               G_REGEX_MATCH_ANCHORED))] } ∧
    engine_calls (gmatch_exec eng ud argE retry).events =
      [Event.g_regex_match_full (request_of ud argE argE.startoffset
        (if retry = 0 then argE.eflags
         else Int.lor (Int.lor argE.eflags G_REGEX_MATCH_NOTEMPTY) G_REGEX_MATCH_ANCHORED))] ∧
    (gmatch_exec eng ud argE retry).argE = argE ∧
    (gmatch_exec eng ud argE retry).argE.eflags = argE.eflags ∧
    engine_calls (gsub_exec eng ud argE st retry).events =
      [Event.g_regex_match_full (request_of ud argE st
        (if retry = 0 then argE.eflags
         else Int.lor (Int.lor argE.eflags G_REGEX_MATCH_NOTEMPTY) G_REGEX_MATCH_ANCHORED))] ∧
    (gsub_exec eng ud argE st retry).argE = argE ∧
    (gsub_exec eng ud argE st retry).argE.eflags = argE.eflags := by
  rcases ud with ⟨pr, mi, err, freed⟩
  cases mi <;> cases err <;> by_cases h : retry = 0 <;>
    simp [gmatch_exec, gsub_exec, call_match_full, minfo_free, gerror_free, engine_calls,
      request_of, Event.is_engine_call, h]

/-- C1, an instance with the engine that reports back its request: with base
flags 0, `gmatch_exec` and `gsub_exec` hand the engine the options 0 when
`retry = 0` and `1024 | 16 = 1040` when `retry = 1`, at the start position
they were given (0 for `gmatch_exec`, 1 for `gsub_exec`). -/
theorem exec_retry_flags_witness :
    (gmatch_exec echo_engine ud_a_star ⟨"ab".toList, 2, 0, 0⟩ 0).ret = 0 ∧
    (gmatch_exec echo_engine ud_a_star ⟨"ab".toList, 2, 0, 0⟩ 1).ret = 1040 ∧
    (gsub_exec echo_engine ud_a_star ⟨"ab".toList, 2, 0, 0⟩ 1 0).ret = 0 ∧
    (gsub_exec echo_engine ud_a_star ⟨"ab".toList, 2, 0, 0⟩ 1 1).ret = 1040 ∧
    ALG_SUBBEG (gsub_exec echo_engine ud_a_star ⟨"ab".toList, 2, 0, 0⟩ 1 1).ud 0 = 1 :=
  ⟨(congrArg ExecResult.ret
      (exec_retry_flags echo_engine ud_a_star ⟨"ab".toList, 2, 0, 0⟩ 1 0).1).trans (by decide),
   (congrArg ExecResult.ret
      (exec_retry_flags echo_engine ud_a_star ⟨"ab".toList, 2, 0, 0⟩ 1 1).1).trans (by decide),
   (congrArg ExecResult.ret
      (exec_retry_flags echo_engine ud_a_star ⟨"ab".toList, 2, 0, 0⟩ 1 0).2.1).trans (by decide),
   (congrArg ExecResult.ret
      (exec_retry_flags echo_engine ud_a_star ⟨"ab".toList, 2, 0, 0⟩ 1 1).2.1).trans (by decide),
   (congrArg (fun r => ALG_SUBBEG r.ud 0)
      (exec_retry_flags echo_engine ud_a_star ⟨"ab".toList, 2, 0, 0⟩ 1 1).2.1).trans (by decide)⟩

/-! ## Theorems: teardown -/

theorem Gregex_gc_freed_ne_zero (ud : TGrgx) : (Gregex_gc ud).1.freed ≠ 0 := by
  unfold Gregex_gc
  by_cases h : ud.freed = 0
  · simp [h, minfo_free, gerror_free]
  · simp [h]

theorem Gregex_gc_of_freed (ud : TGrgx) (h : ud.freed ≠ 0) : Gregex_gc ud = (ud, []) := by
  simp [Gregex_gc, h]

theorem gc_repeat_of_freed (n : Nat) (ud : TGrgx) (h : ud.freed ≠ 0) :
    gc_repeat n ud = (ud, []) := by
  induction n with
  | zero => rfl
  | succ n ih => simp [gc_repeat, Gregex_gc_of_freed ud h, ih]

theorem gc_repeat_succ (n : Nat) (ud : TGrgx) : gc_repeat (n + 1) ud = Gregex_gc ud := by
  simp only [gc_repeat]
  rw [gc_repeat_of_freed n _ (Gregex_gc_freed_ne_zero ud)]
  simp

/-- C9.  For every handle and every `n ≥ 1`, `n` successive `Gregex_gc`
calls leave the same handle and make the same GLib calls as a single call.
On a handle with `freed = 0` that single call releases the compiled pattern,
the last match state and the last error, each exactly once, clears the two
transient fields and sets `freed = 1`; on a handle with `freed = 1` it
changes nothing and releases nothing.  So after the calls `freed = 1`. -/
theorem gc_releases_once (ud : TGrgx) (n : Nat) (hn : 1 ≤ n) :
    gc_repeat n ud = Gregex_gc ud ∧
    gc_repeat n (Gregex_gc ud).1 = ((Gregex_gc ud).1, []) ∧
    (ud.freed = 0 →
      Gregex_gc ud =
        ({ pr := ud.pr, match_info := none, error := none, freed := 1 }, release_events ud)) ∧
    (ud.freed = 1 → Gregex_gc ud = (ud, [])) ∧
    (ud.freed = 0 ∨ ud.freed = 1 → (gc_repeat n ud).1.freed = 1) := by
  obtain ⟨k, rfl⟩ : ∃ k, n = k + 1 := ⟨n - 1, by omega⟩
  have h0 : ud.freed = 0 →
      Gregex_gc ud =
        ({ pr := ud.pr, match_info := none, error := none, freed := 1 }, release_events ud) := by
    intro h
    rcases ud with ⟨pr, mi, err, freed⟩
    cases pr <;> cases mi <;> cases err <;>
      simp_all [Gregex_gc, minfo_free, gerror_free, release_events]
  have h1 : ud.freed = 1 → Gregex_gc ud = (ud, []) := fun h =>
    Gregex_gc_of_freed ud (by omega)
  refine ⟨gc_repeat_succ k ud, gc_repeat_of_freed _ _ (Gregex_gc_freed_ne_zero ud), h0, h1, ?_⟩
  rintro (h | h)
  · rw [gc_repeat_succ, h0 h]
  · rw [gc_repeat_succ, h1 h]
    exact h

/-- C9, an instance: three teardown calls on the live handle `ud_12_34`
release its pattern and its match state once and leave `freed = 1`. -/
theorem gc_releases_once_witness :
    gc_repeat 3 ud_12_34 =
      ({ ud_12_34 with match_info := none, freed := 1 },
        [Event.g_regex_unref { pattern := "(\\d+)-(\\d+)".toList, compile_options := 0 },
         Event.g_match_info_free { match_count := 3, offsets := [(0, 5), (0, 2), (3, 5)],
                                   partial_match := false }]) :=
  (gc_releases_once ud_12_34 3 (by decide)).1.trans (by decide)

/-! ## Theorems: capture offsets -/

theorem gmatch_exec_fields (eng : Engine) (ud : TGrgx) (argE : TArgExec) (retry : Int) :
    (gmatch_exec eng ud argE retry).ret =
      (eng.match_full (request_of ud argE argE.startoffset
        (if retry ≠ 0 then
          Int.lor (Int.lor argE.eflags G_REGEX_MATCH_NOTEMPTY) G_REGEX_MATCH_ANCHORED
         else argE.eflags))).result ∧
    (gmatch_exec eng ud argE retry).ud.match_info =
      (eng.match_full (request_of ud argE argE.startoffset
        (if retry ≠ 0 then
          Int.lor (Int.lor argE.eflags G_REGEX_MATCH_NOTEMPTY) G_REGEX_MATCH_ANCHORED
         else argE.eflags))).match_info ∧
    (gmatch_exec eng ud argE retry).ud.error =
      (eng.match_full (request_of ud argE argE.startoffset
        (if retry ≠ 0 then
          Int.lor (Int.lor argE.eflags G_REGEX_MATCH_NOTEMPTY) G_REGEX_MATCH_ANCHORED
         else argE.eflags))).error := by
  simp [gmatch_exec, call_match_full, minfo_free, gerror_free, request_of]

theorem retry_flags_notempty (f : Int) :
    Int.testBit (Int.lor (Int.lor f G_REGEX_MATCH_NOTEMPTY) G_REGEX_MATCH_ANCHORED) 10 = true := by
  have h : Int.testBit G_REGEX_MATCH_NOTEMPTY 10 = true := by decide
  simp [Int.testBit_lor, h]

/-- Slot 0 of a matched run of `gmatch_exec`, under the engine contract. -/
theorem gmatch_exec_matched (eng : Engine) (hc : EngineContract eng) (ud : TGrgx)
    (argE : TArgExec) (retry : Int) (h0 : 0 ≤ argE.startoffset)
    (h1 : argE.startoffset ≤ argE.textlen)
    (hm : exec_outcome (gmatch_exec eng ud argE retry) = .matched) :
    argE.startoffset ≤ ALG_SUBBEG (gmatch_exec eng ud argE retry).ud 0 ∧
    ALG_SUBBEG (gmatch_exec eng ud argE retry).ud 0 ≤
      ALG_SUBEND (gmatch_exec eng ud argE retry).ud 0 ∧
    ALG_SUBEND (gmatch_exec eng ud argE retry).ud 0 ≤ argE.textlen ∧
    (retry ≠ 0 → ALG_SUBBEG (gmatch_exec eng ud argE retry).ud 0 <
      ALG_SUBEND (gmatch_exec eng ud argE retry).ud 0) := by
  obtain ⟨hret, hmi, herr⟩ := gmatch_exec_fields eng ud argE retry
  have herr0 : (gmatch_exec eng ud argE retry).ud.error = none := by
    cases hE : (gmatch_exec eng ud argE retry).ud.error with
    | none => rfl
    | some e => simp [exec_outcome, hE] at hm
  have hres : (gmatch_exec eng ud argE retry).ret = TRUE := by
    by_cases hR : (gmatch_exec eng ud argE retry).ret = TRUE
    · exact hR
    · simp [exec_outcome, herr0, ALG_ISMATCH, hR] at hm
  obtain ⟨s, e, hfetch, hs, hse, he, hne⟩ :=
    hc _ (by simpa [request_of] using h0) (by simpa [request_of] using h1)
      (herr ▸ herr0) (hret ▸ hres)
  rw [← hmi] at hfetch
  have hb : ALG_SUBBEG (gmatch_exec eng ud argE retry).ud 0 = s := by
    simp [ALG_SUBBEG, getSubStartPos, hfetch]
  have hen : ALG_SUBEND (gmatch_exec eng ud argE retry).ud 0 = e := by
    simp [ALG_SUBEND, getSubEndPos, hfetch]
  rw [hb, hen]
  refine ⟨by simpa [request_of] using hs, hse, by simpa [request_of] using he, ?_⟩
  intro hr
  apply hne
  simp only [request_of, hr, ne_eq, not_false_eq_true, if_true]
  exact retry_flags_notempty _

theorem iterate_fuel_succ (eng : Engine) (fuel : Nat) :
    ∀ (ud : TGrgx) (argE : TArgExec) (retry : Int) (r : IterResult),
      iterate eng fuel ud argE retry = some r → iterate eng (fuel + 1) ud argE retry = some r := by
  induction fuel with
  | zero => intro ud argE retry r h; simp [iterate] at h
  | succ k ih =>
    intro ud argE retry r h
    rw [iterate] at h
    rw [iterate]
    cases ho : exec_outcome (gmatch_exec eng ud argE retry) with
    | engine_error =>
      simp only [ho] at h ⊢
      exact h
    | no_match =>
      simp only [ho] at h ⊢
      by_cases hr : retry ≠ 0
      · rw [if_pos hr] at h ⊢
        by_cases hl : argE.startoffset + 1 > argE.textlen
        · rw [if_pos hl] at h ⊢
          exact h
        · rw [if_neg hl] at h ⊢
          exact ih _ _ _ _ h
      · rw [if_neg hr] at h ⊢
        exact h
    | matched =>
      simp only [ho] at h ⊢
      cases hrest : iterate eng k (gmatch_exec eng ud argE retry).ud
          { argE with startoffset := ALG_SUBEND (gmatch_exec eng ud argE retry).ud 0 }
          (if ALG_SUBEND (gmatch_exec eng ud argE retry).ud 0 -
              ALG_SUBBEG (gmatch_exec eng ud argE retry).ud 0 = 0 then 1 else 0) with
      | none => simp [hrest] at h
      | some rest =>
        rw [ih _ _ _ _ hrest]
        simpa [hrest] using h

theorem iterate_fuel_mono (eng : Engine) (fuel fuel2 : Nat) (hle : fuel ≤ fuel2)
    (ud : TGrgx) (argE : TArgExec) (retry : Int) (r : IterResult)
    (h : iterate eng fuel ud argE retry = some r) : iterate eng fuel2 ud argE retry = some r := by
  induction hle with
  | refl => exact h
  | step _ ih => exact iterate_fuel_succ eng _ ud argE retry r ih

theorem iterate_measure (eng : Engine) (hc : EngineContract eng) (fuel : Nat) :
    ∀ (ud : TGrgx) (argE : TArgExec) (retry : Int),
      0 ≤ argE.startoffset → argE.startoffset ≤ argE.textlen →
      2 * (argE.textlen - argE.startoffset).toNat + (if retry = 0 then 2 else 1) ≤ fuel →
      ∃ r, iterate eng fuel ud argE retry = some r ∧
        (∀ p ∈ r.yielded, argE.startoffset ≤ p.2) ∧
        List.Chain' (fun a b => a ≤ b) (r.yielded.map Prod.snd) := by
  induction fuel with
  | zero =>
    intro ud argE retry _ _ hf
    split_ifs at hf <;> omega
  | succ k ih =>
    intro ud argE retry h0 h1 hf
    rw [iterate]
    cases ho : exec_outcome (gmatch_exec eng ud argE retry) with
    | engine_error =>
      exact ⟨{ yielded := [], error := (gmatch_exec eng ud argE retry).ud.error }, rfl,
        by simp, by simp⟩
    | no_match =>
      simp only
      by_cases hr : retry ≠ 0
      · rw [if_pos hr]
        by_cases hl : argE.startoffset + 1 > argE.textlen
        · rw [if_pos hl]
          exact ⟨{ yielded := [], error := none }, rfl, by simp, by simp⟩
        · rw [if_neg hl]
          have hr0 : ¬ retry = 0 := hr
          obtain ⟨r, hit, hge, hch⟩ := ih (gmatch_exec eng ud argE retry).ud
            { argE with startoffset := argE.startoffset + 1 } 0
            (by simp only; omega) (by simp only; omega)
            (by simp only [hr0, if_false, if_true] at hf ⊢; omega)
          refine ⟨r, hit, ?_, hch⟩
          intro p hp
          have := hge p hp
          simp only at this
          omega
      · rw [if_neg hr]
        exact ⟨{ yielded := [], error := none }, rfl, by simp, by simp⟩
    | matched =>
      simp only
      obtain ⟨hs, hse, he, hne⟩ := gmatch_exec_matched eng hc ud argE retry h0 h1 ho
      obtain ⟨r, hit, hge, hch⟩ := ih (gmatch_exec eng ud argE retry).ud
        { argE with startoffset := ALG_SUBEND (gmatch_exec eng ud argE retry).ud 0 }
        (if ALG_SUBEND (gmatch_exec eng ud argE retry).ud 0 -
            ALG_SUBBEG (gmatch_exec eng ud argE retry).ud 0 = 0 then 1 else 0)
        (by simp only; omega) (by simp only; omega)
        (by
          simp only
          by_cases hr : retry = 0
          · simp only [hr, if_true] at hf
            split_ifs <;> omega
          · have := hne hr
            simp only [hr, if_false] at hf
            split_ifs <;> omega)
      rw [hit]
      refine ⟨{ yielded := (ALG_SUBBEG (gmatch_exec eng ud argE retry).ud 0,
                  ALG_SUBEND (gmatch_exec eng ud argE retry).ud 0) :: r.yielded,
                error := r.error }, rfl, ?_, ?_⟩
      · intro p hp
        simp only [List.mem_cons] at hp
        rcases hp with rfl | hp
        · simp only; omega
        · have := hge p hp
          simp only at this
          omega
      · simp only [List.map_cons]
        apply List.Chain'.cons' hch
        intro y hy
        cases hyl : r.yielded with
        | nil => simp [hyl] at hy
        | cons q qs =>
          simp only [hyl, List.map_cons, List.head?_cons, Option.mem_def, Option.some.injEq] at hy
          have := hge q (by simp [hyl])
          simp only at this
          omega


theorem run_of_a_le_length (s : List Char) : run_of_a s ≤ s.length := by
  induction s with
  | nil => simp [run_of_a]
  | cons c s ih =>
    unfold run_of_a
    split_ifs
    · simp only [List.length_cons]; omega
    · omega

theorem a_star_engine_contract : EngineContract a_star_engine := by
  intro rq h0 h1 _ hres
  have hlen := run_of_a_le_length ((rq.string.take rq.string_len.toNat).drop rq.start_position.toNat)
  simp only [List.length_drop, List.length_take] at hlen
  by_cases hcond : rq.start_position < 0 ∨ rq.string_len < rq.start_position ∨
      (run_of_a ((rq.string.take rq.string_len.toNat).drop rq.start_position.toNat) = 0 ∧
        Int.testBit rq.match_options 10 = true)
  · simp [a_star_engine, hcond, TRUE, FALSE] at hres
  · refine ⟨rq.start_position, rq.start_position +
      run_of_a ((rq.string.take rq.string_len.toNat).drop rq.start_position.toNat), ?_, ?_⟩
    · simp only [a_star_engine, hcond, if_false, g_match_info_fetch_pos]
      rfl
    · push_neg at hcond
      refine ⟨le_refl _, by omega, by omega, ?_⟩
      intro hbit
      have := hcond.2.2
      have hne : run_of_a ((rq.string.take rq.string_len.toNat).drop rq.start_position.toNat) ≠ 0 :=
        fun h => this h hbit
      omega

/-- C2.  Against any engine that keeps the engine contract (which pattern
was compiled, and so whether it can match the empty string, is left open),
for every handle and every subject with start offset inside the subject, the
global iteration ends: there is one result that `iterate` returns for every
fuel from `2 * (textlen - startoffset) + 2` engine runs on; and in that
result each yielded match's end offset is `≥` the end offset of the match
yielded before it. -/
theorem iterate_terminates_monotone (eng : Engine) (hc : EngineContract eng) (ud : TGrgx)
    (argE : TArgExec) (retry : Int) (h0 : 0 ≤ argE.startoffset)
    (h1 : argE.startoffset ≤ argE.textlen) :
    ∃ r, (∀ fuel, 2 * (argE.textlen - argE.startoffset).toNat + 2 ≤ fuel →
        iterate eng fuel ud argE retry = some r) ∧
      List.Chain' (fun a b => a ≤ b) (r.yielded.map Prod.snd) := by
  obtain ⟨r, hit, _, hch⟩ := iterate_measure eng hc
    (2 * (argE.textlen - argE.startoffset).toNat + 2) ud argE retry h0 h1
    (by split_ifs <;> omega)
  exact ⟨r, fun fuel hf => iterate_fuel_mono eng _ fuel hf ud argE retry r hit, hch⟩

/-- C2, an instance: the engine for `a*`, which matches the empty string,
keeps the engine contract, and the iteration over `baaab` from offset 0
ends after yielding `[0,0)`, `[1,4)`, `[4,4)`, `[5,5)` (after `[1,4)` the
retry flag is clear, so the empty match at offset 4 is yielded as well). -/
theorem iterate_terminates_monotone_witness :
    EngineContract a_star_engine ∧
    iterate a_star_engine 12 ud_a_star ⟨"baaab".toList, 5, 0, 0⟩ 0 =
      some { yielded := [(0, 0), (1, 4), (4, 4), (5, 5)], error := none } ∧
    ∃ r, (∀ fuel, 12 ≤ fuel →
        iterate a_star_engine fuel ud_a_star ⟨"baaab".toList, 5, 0, 0⟩ 0 = some r) ∧
      List.Chain' (fun a b => a ≤ b) (r.yielded.map Prod.snd) :=
  ⟨a_star_engine_contract, by decide,
   iterate_terminates_monotone a_star_engine a_star_engine_contract ud_a_star
     ⟨"baaab".toList, 5, 0, 0⟩ 0 (by decide) (by decide)⟩


/-! ## Theorems: dfa_exec -/

/-- What `Gregex_dfa_exec` does when the engine answers `FALSE` and flags no
partial match: it returns nil, whether or not the engine stored an error. -/
theorem dfa_exec_on_false (eng : Engine) (tbl : List flag_pair) (ud : TGrgx) (argE : TArgExec)
    (hres : (eng.match_all_full (dfa_request ud argE)).result = FALSE)
    (hpart : g_match_info_is_partial_match
      (eng.match_all_full (dfa_request ud argE)).match_info = false) :
    Gregex_dfa_exec eng tbl ud argE =
      some { ret := .values [.nil],
             ud := { ud with match_info := none,
                             error := (eng.match_all_full (dfa_request ud argE)).error },
             events := (gerror_free ud).2 ++
               [Event.g_regex_match_all_full (dfa_request ud argE)] ++
               (eng.match_all_full (dfa_request ud argE)).match_info.toList.map
                 Event.g_match_info_free } := by
  rcases hO : eng.match_all_full (dfa_request ud argE) with ⟨res, mi, err⟩
  rw [hO] at hres hpart
  have hO2 : eng.match_all_full
      { regex := ud.pr, string := argE.text, string_len := c_int argE.textlen,
        start_position := argE.startoffset, match_options := argE.eflags } =
      { result := res, match_info := mi, error := err } := hO
  simp only at hres hpart
  subst hres
  have hne : ¬ (FALSE = TRUE) := by decide
  cases mi <;>
    simp_all [Gregex_dfa_exec, gerror_free, ALG_ISMATCH, ALG_NOMATCH, minfo_free, dfa_request]

/-- C3, the code at a failing input.  The engine ends the match-all call in
an error (it answers `FALSE`, stores the error `G_REGEX_ERROR_MATCH` and
flags no partial match).  `Gregex_dfa_exec` returns the single value nil,
exactly as for a no-match, and leaves the error on the handle;
`generate_error`, applied to that handle, would have raised the error under
its symbolic name. -/
theorem dfa_exec_engine_error_returns_nil :
    Gregex_dfa_exec
        (const_engine (none, none) ⟨FALSE, none, none⟩
          ⟨FALSE, some ⟨-1, [], false⟩, some err_match⟩)
        sample_error_flags ud_a_star ⟨"aa".toList, 2, 0, 0⟩ =
      some { ret := .values [.nil],
             ud := { ud_a_star with error := some err_match },
             events := [Event.g_regex_match_all_full
                          (dfa_request ud_a_star ⟨"aa".toList, 2, 0, 0⟩),
                        Event.g_match_info_free ⟨-1, [], false⟩] } ∧
    generate_error sample_error_flags { ud_a_star with error := some err_match } 0 =
      some (.raise "error G_REGEX_ERROR_MATCH (match failed)".toList) := by
  decide

/-- For every outcome in which the engine answers `FALSE`, stores an error
and flags no partial match, `Gregex_dfa_exec` returns nil and raises
nothing. -/
theorem dfa_exec_swallows_engine_error (eng : Engine) (tbl : List flag_pair) (ud : TGrgx)
    (argE : TArgExec) (e : GError)
    (hres : (eng.match_all_full (dfa_request ud argE)).result = FALSE)
    (hpart : g_match_info_is_partial_match
      (eng.match_all_full (dfa_request ud argE)).match_info = false)
    (_herr : (eng.match_all_full (dfa_request ud argE)).error = some e) :
    ∃ r, Gregex_dfa_exec eng tbl ud argE = some r ∧ r.ret = .values [.nil] :=
  ⟨_, dfa_exec_on_false eng tbl ud argE hres hpart, rfl⟩

/-! ## Theorems: clearing the handle before the engine runs -/

/-- The four functions `findmatch_exec`, `gmatch_exec`, `gsub_exec` and
`split_exec` release the prior match state and the prior error, then run
the engine once; the result and the handle afterwards do not depend on what
the handle held in `match_info` and `error` before. -/
theorem sibling_exec_clear_then_run (eng : Engine) (ud : TGrgx) (argE : TArgExec)
    (st retry : Int) (mi : Option GMatchInfo) (err : Option GError) :
    (findmatch_exec eng ud argE).events =
      ud.match_info.toList.map Event.g_match_info_free ++
        ud.error.toList.map Event.g_error_free ++
        [Event.g_regex_match_full (request_of ud argE argE.startoffset argE.eflags)] ∧
    (gmatch_exec eng ud argE retry).events =
      ud.match_info.toList.map Event.g_match_info_free ++
        ud.error.toList.map Event.g_error_free ++
        [Event.g_regex_match_full (request_of ud argE argE.startoffset
          (if retry ≠ 0 then
            Int.lor (Int.lor argE.eflags G_REGEX_MATCH_NOTEMPTY) G_REGEX_MATCH_ANCHORED
           else argE.eflags))] ∧
    (gsub_exec eng ud argE st retry).events =
      ud.match_info.toList.map Event.g_match_info_free ++
        ud.error.toList.map Event.g_error_free ++
        [Event.g_regex_match_full (request_of ud argE st
          (if retry ≠ 0 then
            Int.lor (Int.lor argE.eflags G_REGEX_MATCH_NOTEMPTY) G_REGEX_MATCH_ANCHORED
           else argE.eflags))] ∧
    (split_exec eng ud argE st).events =
      ud.match_info.toList.map Event.g_match_info_free ++
        ud.error.toList.map Event.g_error_free ++
        [Event.g_regex_match_full (request_of ud argE st argE.eflags)] ∧
    (findmatch_exec eng { ud with match_info := mi, error := err } argE).ret =
      (findmatch_exec eng ud argE).ret ∧
    (findmatch_exec eng { ud with match_info := mi, error := err } argE).ud =
      (findmatch_exec eng ud argE).ud ∧
    (gmatch_exec eng { ud with match_info := mi, error := err } argE retry).ret =
      (gmatch_exec eng ud argE retry).ret ∧
    (gmatch_exec eng { ud with match_info := mi, error := err } argE retry).ud =
      (gmatch_exec eng ud argE retry).ud ∧
    (gsub_exec eng { ud with match_info := mi, error := err } argE st retry).ret =
      (gsub_exec eng ud argE st retry).ret ∧
    (gsub_exec eng { ud with match_info := mi, error := err } argE st retry).ud =
      (gsub_exec eng ud argE st retry).ud ∧
    (split_exec eng { ud with match_info := mi, error := err } argE st).ret =
      (split_exec eng ud argE st).ret ∧
    (split_exec eng { ud with match_info := mi, error := err } argE st).ud =
      (split_exec eng ud argE st).ud := by
  rcases ud with ⟨pr, m0, e0, freed⟩
  refine ⟨?_, ?_, ?_, ?_, rfl, rfl, rfl, rfl, rfl, rfl, rfl, rfl⟩ <;>
    cases m0 <;> cases e0 <;> rfl

/-- C8, the code at a failing input.  The handle `ud_12_34` still holds the
match state of an earlier `findmatch_exec`.  `findmatch_exec` on it frees
that match state before it runs the engine.  `Gregex_dfa_exec` on it runs
the engine first and then frees only the match state the engine has just
stored: the prior match state is never released. -/
theorem dfa_exec_keeps_prior_match_info :
    (findmatch_exec
        (const_engine (none, none) ⟨FALSE, some ⟨0, [], false⟩, none⟩
          ⟨FALSE, some ⟨0, [], false⟩, none⟩)
        ud_12_34 ⟨"ab".toList, 2, 0, 0⟩).events =
      [Event.g_match_info_free ⟨3, [(0, 5), (0, 2), (3, 5)], false⟩,
       Event.g_regex_match_full (request_of ud_12_34 ⟨"ab".toList, 2, 0, 0⟩ 0 0)] ∧
    (Gregex_dfa_exec
        (const_engine (none, none) ⟨FALSE, some ⟨0, [], false⟩, none⟩
          ⟨FALSE, some ⟨0, [], false⟩, none⟩)
        sample_error_flags ud_12_34 ⟨"ab".toList, 2, 0, 0⟩).map (fun r => r.events) =
      some [Event.g_regex_match_all_full (dfa_request ud_12_34 ⟨"ab".toList, 2, 0, 0⟩),
            Event.g_match_info_free ⟨0, [], false⟩] := by
  decide

/-! ## Theorems: the error surface -/

/-- C7 (amended).  For an execution failure whose code has a name in the
table, `generate_error` raises `error G_REGEX_<name> (<message>)`, which
contains the symbolic name and the engine's message.  A compile failure is
raised by `compile_regex` as `<message> (code: <code>)`: the engine's
message and the numeric code, whatever the table holds. -/
theorem error_surface (tbl : List flag_pair) (ud : TGrgx) (err : GError) (key : List Char)
    (errcode : Int) (herr : ud.error = some err)
    (hkey : get_flag_key tbl err.code = some key) :
    (∃ msg, generate_error tbl ud errcode = some (.raise msg) ∧
      msg = "error G_REGEX_".toList ++ key ++ " (".toList ++ err.message ++ ")".toList ∧
      key <:+: msg ∧ err.message <:+: msg) ∧
    (∀ (eng : Engine) (argC : TArgComp),
      eng.regex_new argC.pattern argC.cflags 0 = (none, some err) →
      compile_regex eng argC =
        some (.raise (err.message ++ " (code: ".toList ++ fmt_d err.code ++ ")".toList))) := by
  constructor
  · refine ⟨_, by simp [generate_error, herr, hkey], rfl, ?_, ?_⟩
    · exact ⟨"error G_REGEX_".toList, " (".toList ++ err.message ++ ")".toList, by simp⟩
    · exact ⟨"error G_REGEX_".toList ++ key ++ " (".toList, ")".toList, by simp⟩
  · intro eng argC hnew
    simp [compile_regex, hnew]

/-- C7, an instance: the matching error with code 3 is named `ERROR_MATCH` in
the sample table and is raised under that name. -/
theorem error_surface_witness :
    (∃ msg, generate_error sample_error_flags { ud_a_star with error := some err_match } 0 =
        some (.raise msg) ∧
      msg = "error G_REGEX_".toList ++ "ERROR_MATCH".toList ++ " (".toList ++
        err_match.message ++ ")".toList ∧
      "ERROR_MATCH".toList <:+: msg ∧ err_match.message <:+: msg) :=
  (error_surface sample_error_flags { ud_a_star with error := some err_match } err_match
    "ERROR_MATCH".toList 0 rfl (by decide)).1

/-- C7 as stated fails for compile failures.  The error of an unbalanced
group has code 114, which the table names `ERROR_UNMATCHED_PARENTHESIS`;
`generate_error` reports it under that name, but `compile_regex` raises
`missing ) (code: 114)`, which does not contain the name. -/
theorem compile_error_counterexample :
    get_flag_key sample_error_flags err_unmatched.code =
      some "ERROR_UNMATCHED_PARENTHESIS".toList ∧
    generate_error sample_error_flags { ud_a_star with error := some err_unmatched } 0 =
      some (.raise "error G_REGEX_ERROR_UNMATCHED_PARENTHESIS (missing ))".toList) ∧
    compile_regex
        (const_engine (none, some err_unmatched) ⟨FALSE, none, none⟩ ⟨FALSE, none, none⟩)
        ⟨"(".toList, 0⟩ =
      some (.raise "missing ) (code: 114)".toList) ∧
    ¬ ("ERROR_UNMATCHED_PARENTHESIS".toList <:+: "missing ) (code: 114)".toList) := by
  decide

end Lglib
